import Mathlib

/-!
Verification of the gopwsh PowerShell-host core.

The Go source (gopwsh package: `New`, `Shell.Execute`, `Shell.execute`,
`Shell.Exit`, `QuoteArg`, `streamReader`, `createBoundary`) is shallowly
embedded below.  Strings are embedded as `List Char`; the two output pipes
of the PowerShell process are embedded as a list of read events — a
`chunk` is data the next `Read` delivers promptly, a `pause` is an
interval in which the reader is blocked with no data available — followed
by an end event (the stream either blocks forever or yields a read error).
The concurrent sentinel-reader versus fatal-marker-watcher race inside
`streamReader` is determinised against this schedule: the reader consumes
each available chunk promptly, while the polling fatal watcher inspects
the accumulator during every pause (and during the terminal block), so a
stream that prints the fatal marker and then stalls before its sentinel is
rejected exactly as in the source.
All I/O performed by an operation is recorded in an explicit action trace.
-/

namespace Gopwsh

/-- Go strings, embedded as lists of characters. -/
abbrev Str := List Char

/-- The single-quote character (codepoint 39), as interpolated by
`Shell.execute` and `QuoteArg` in the source. -/
def sq : Char := Char.ofNat 39

/-- `newLine` package variable: "\r\n" when `runtime.GOOS == "windows"`,
otherwise "\n".  Fixed at process start. -/
def newLine (win : Bool) : Str := if win then "\r\n".data else "\n".data

/-- `const bufferSize int = 64`: the fixed read-buffer size of `streamReader`.
The chunk lists below may have any chunk sizes, which subsumes the 64-byte
bound. -/
def bufferSize : Nat := 64

/-- The fatal interpreter parse-failure marker checked by `streamReader`
and `Shell.execute`. -/
def parserErrorMark : Str := "ParserError".data

/-- Go `strings.TrimSuffix`. -/
def trimSuffix (s suffix : Str) : Str :=
  if suffix <:+ s then s.take (s.length - suffix.length) else s

/-- `createBoundary`: `"$gopwsh" + randstr.Hex(12) + "$"`.  The random hex
draw made by the external `randstr` library is passed in as `hex`. -/
def createBoundary (hex : Str) : Str := "$gopwsh".data ++ hex ++ "$".data

/-- The alphabet `randstr.Hex` draws from. -/
def hexAlphabet : Str := "0123456789abcdef".data

/-- One scheduling event on an output stream: either the next `Read`
promptly delivers the bytes `c`, or the reader stays blocked for a poll
interval with no new data (during which the fatal-marker watcher gets to
inspect the accumulator). -/
inductive ReadEvent where
  | chunk (c : Str)
  | pause
deriving DecidableEq

/-- The bytes one read event delivers. -/
def eventData : ReadEvent → Str
  | .chunk c => c
  | .pause => []

/-- All bytes a sequence of read events delivers. -/
def eventsBytes (evs : List ReadEvent) : Str := (evs.map eventData).flatten

/-- How one of the process's output streams behaves after delivering all of
its chunks: it either never produces anything again (the next `Read` blocks
forever) or the next `Read` returns an error carrying `msg`. -/
inductive StreamEnd where
  | hang
  | readErr (msg : Str)
deriving DecidableEq

/-- Outcome of one `streamReader` task: the inner `FastAny` race either
resolves with the captured text, rejects with an error message, or never
finishes. -/
inductive ReadOutcome where
  | resolved (text : Str)
  | rejected (msg : Str)
  | hang
deriving DecidableEq

/-- The race inside `streamReader`, run against a stream schedule: bytes
are appended to `output` chunk by chunk and the `boundary + newLine` suffix
is checked after each append; whenever the reader is blocked — during a
`pause` event and after the chunks run out on a `StreamEnd.hang` — the
polling fatal-marker watcher inspects the accumulator and rejects with it
if it contains "ParserError"; a read error rejects with the wrapped
message. -/
def streamReaderGo (marker : Str) (acc : Str) : List ReadEvent → StreamEnd → ReadOutcome
  | [], .hang =>
    if parserErrorMark <:+: acc then .rejected acc else .hang
  | [], .readErr m => .rejected ("failed to read stream".data ++ ": ".data ++ m)
  | .chunk c :: rest, e =>
    if marker <:+ (acc ++ c) then .resolved (trimSuffix (acc ++ c) marker)
    else streamReaderGo marker (acc ++ c) rest e
  | .pause :: rest, e =>
    if parserErrorMark <:+: acc then .rejected acc
    else streamReaderGo marker acc rest e

/-- `streamReader(stream, boundary)`: reads until `output` ends with
`marker := boundary + newLine`, trimming the marker from the result, unless
the fatal watcher wins the race first. -/
def streamReader (chunks : List ReadEvent) (e : StreamEnd) (boundary : Str) (win : Bool) :
    ReadOutcome :=
  streamReaderGo (boundary ++ newLine win) [] chunks e

/-- Result of `await.FastAllOrError` over the two stream readers: both
resolutions, or the first rejection, or no completion at all. -/
inductive StreamsResult where
  | ok (sout serr : Str)
  | err (msg : Str)
  | hang
deriving DecidableEq

/-- `await.FastAllOrError(outReader, errReader)`: waits for both results but
short-circuits on the first failure of either. -/
def fastAllOrError : ReadOutcome → ReadOutcome → StreamsResult
  | .rejected m, _ => .err m
  | .resolved _, .rejected m => .err m
  | .resolved a, .resolved b => .ok a b
  | .resolved _, .hang => .hang
  | .hang, .rejected m => .err m
  | .hang, _ => .hang

/-- The process backend (`Starter`) as reachable from an open `Shell`; the
only property of it the core's control flow depends on is whether its stdin
writer also implements `io.Closer`. -/
structure Backend where
  stdinClosable : Bool
deriving DecidableEq

/-- The `Shell` struct.  `backend = none` models the nil backend pointer of
a closed shell. -/
structure Shell where
  backend : Option Backend
  env : List (Str × Str)
  envCombined : Bool
  pwshLocation : Str
  sudoLocation : Str
  wd : Str
deriving DecidableEq

/-- One observable I/O action against the backend's streams/process. -/
inductive IOAction where
  | stdinWrite (data : Str)
  | stdoutRead
  | stderrRead
  | stdinClose
  | waitProc
deriving DecidableEq

/-- Errors as produced by the `goerr` library: a message, possibly wrapped
with context strings. -/
inductive GoErr where
  | msg (text : Str)
  | wrap (cause : GoErr) (context : List Str)
deriving DecidableEq

/-- The message of the closed-shell error in `Shell.execute`. -/
def closedShellMsg : Str := "Cannot execute commands on closed shells.".data

/-- The text `"exit" + newLine` written by `Shell.Exit`. -/
def exitCmdText (win : Bool) : Str := "exit".data ++ newLine win

/-- `Shell.Exit`: nil-backend calls are no-ops; otherwise write
`exit`+newline best-effort, close stdin if the backend's stdin is closable,
wait for the process, and null out the backend. -/
def Shell.Exit (s : Shell) (win : Bool) : Shell × List IOAction :=
  match s.backend with
  | none => (s, [])
  | some b =>
    ({ s with backend := none },
      IOAction.stdinWrite (exitCmdText win) ::
        ((if b.stdinClosable then [IOAction.stdinClose] else []) ++ [IOAction.waitProc]))

/-- The per-call environment of one `Shell.execute` invocation: the two
random hex draws `randstr.Hex(12)` produces for the two boundaries, the
result of the stdin write, and the behavior of the two output streams. -/
structure CmdEnv where
  hexOut : Str
  hexErr : Str
  writeErr : Option Str
  outChunks : List ReadEvent
  outEnd : StreamEnd
  errChunks : List ReadEvent
  errEnd : StreamEnd
deriving DecidableEq

/-- The framed command `fmt.Sprintf("%s; echo '%s'; [Console]::Error.WriteLine('%s')%s",
cmd, outBoundary, errBoundary, newLine)`. -/
def framedCommand (cmd outB errB : Str) (win : Bool) : Str :=
  cmd ++ "; echo ".data ++ [sq] ++ outB ++ [sq] ++
    "; [Console]::Error.WriteLine(".data ++ [sq] ++ errB ++ [sq] ++ [')'] ++ newLine win

/-- What one `Shell.execute` / `Shell.Execute` call returns, along with the
(possibly closed) shell afterwards and the I/O actions it performed. -/
structure ExecResult where
  shell : Shell
  stdout : Str
  stderr : Str
  err : Option GoErr
  trace : List IOAction
deriving DecidableEq

/-- `Shell.execute` (the single-command protocol).  `none` models the call
never returning (both streams hang without a fatal marker). -/
def Shell.execute (s : Shell) (cmd : Str) (e : CmdEnv) (win : Bool) : Option ExecResult :=
  match s.backend with
  | none => some ⟨s, [], [], some (.wrap (.msg closedShellMsg) [cmd]), []⟩
  | some b =>
    let outB := createBoundary e.hexOut
    let errB := createBoundary e.hexErr
    let full := framedCommand cmd outB errB win
    match e.writeErr with
    | some werr =>
      some ⟨s, [], [],
        some (.wrap (.msg werr) ["Could not send PowerShell command".data, cmd]),
        [.stdinWrite full]⟩
    | none =>
      match fastAllOrError (streamReader e.outChunks e.outEnd outB win)
                           (streamReader e.errChunks e.errEnd errB win) with
      | .ok sout serr =>
        some ⟨s, sout, serr, none, [.stdinWrite full, .stdoutRead, .stderrRead]⟩
      | .err m =>
        if parserErrorMark <:+: m then
          some ⟨{ s with backend := none }, [], [],
            some (.wrap (.msg m) ["Failed to read stdout/stderr steams".data]),
            [.stdinWrite full, .stdoutRead, .stderrRead] ++
              (IOAction.stdinWrite (exitCmdText win) ::
                ((if b.stdinClosable then [IOAction.stdinClose] else []) ++ [IOAction.waitProc]))⟩
        else
          some ⟨s, [], [],
            some (.wrap (.msg m) ["Failed to read stdout/stderr steams".data]),
            [.stdinWrite full, .stdoutRead, .stderrRead]⟩
      | .hang => none

/-- `Shell.Execute`: runs each command through `Shell.execute` in order,
concatenating stdout and stderr, stopping at (and wrapping) the first
error. -/
def Shell.Execute : Shell → List (Str × CmdEnv) → Bool → Option ExecResult
  | s, [], _ => some ⟨s, [], [], none, []⟩
  | s, (cmd, e) :: rest, win =>
    match s.execute cmd e win with
    | none => none
    | some r =>
      match r.err with
      | some u =>
        some ⟨r.shell, r.stdout, r.stderr,
          some (.wrap u ["failed to execute".data, cmd]), r.trace⟩
      | none =>
        match r.shell.Execute rest win with
        | none => none
        | some q =>
          some ⟨q.shell, r.stdout ++ q.stdout, r.stderr ++ q.stderr, q.err,
            r.trace ++ q.trace⟩

/-- Go `strings.ReplaceAll(s, old, new)` for a non-empty pattern `old`
(both call sites in the source use the one-character pattern `"'"`). -/
def replaceAll (s old new : Str) : Str :=
  match s with
  | [] => []
  | c :: rest =>
    if h : old ≠ [] ∧ old <+: (c :: rest) then
      new ++ replaceAll ((c :: rest).drop old.length) old new
    else
      c :: replaceAll rest old new
termination_by s.length
decreasing_by
  · simp only [List.length_drop]
    have hlen : 0 < old.length := List.length_pos.mpr h.1
    simp only [List.length_cons]
    omega
  · simp [Nat.lt_succ_self]

/-- `QuoteArg`: `"'" + strings.ReplaceAll(s, "'", "''") + "'"`. -/
def QuoteArg (s : Str) : Str := [sq] ++ replaceAll s [sq] [sq, sq] ++ [sq]

/-- One call made against the backend during `New`. -/
inductive BackendCall where
  | setEnvCall
  | setWorkingDirCall
  | lookPathCall (name : Str)
  | startProcessCall (cmd : Str) (args : List Str)
deriving DecidableEq

/-- The backend's responses during construction: executable lookup results,
start-process results, and whether its stdin is closable. -/
structure BackendOracle where
  lookPath : Str → Option Str
  startErr : Str → List Str → Option Str
  stdinClosable : Bool

/-- Interpreter-binary resolution in `New`: an explicit `pwshLocation` is
used as-is; otherwise `LookPath("pwsh")` is tried first and
`LookPath("powershell")` only on its failure.  Returns the resolved path (or
`none` on failure) and the lookups performed. -/
def resolvePwsh (explicitLoc : Str) (lookPath : Str → Option Str) :
    Option Str × List BackendCall :=
  if explicitLoc = [] then
    match lookPath "pwsh".data with
    | some p => (some p, [.lookPathCall "pwsh".data])
    | none =>
      match lookPath "powershell".data with
      | some p => (some p, [.lookPathCall "pwsh".data, .lookPathCall "powershell".data])
      | none => (none, [.lookPathCall "pwsh".data, .lookPathCall "powershell".data])
  else (some explicitLoc, [])

/-- Sudo-binary resolution in `New`: no elevation when `sudoLocation` is
empty; the literal name `"sudo"` triggers a lookup; any other value is an
explicit path.  `none` in the first component means construction fails. -/
def resolveSudo (sudoLoc : Str) (lookPath : Str → Option Str) :
    Option (Option Str) × List BackendCall :=
  if sudoLoc = [] then (some none, [])
  else if sudoLoc = "sudo".data then
    match lookPath "sudo".data with
    | some p => (some (some p), [.lookPathCall "sudo".data])
    | none => (none, [.lookPathCall "sudo".data])
  else (some (some sudoLoc), [])

/-- `New`, after the functional options have been applied to `s0` (the
decorators are plain field setters): push env and working directory to the
backend, resolve the interpreter binary, resolve sudo if requested, then
start the process with `-NoExit -Command -`. -/
def NewRun (s0 : Shell) (o : BackendOracle) : Except GoErr Shell × List BackendCall :=
  let tr0 : List BackendCall := [.setEnvCall, .setWorkingDirCall]
  match resolvePwsh s0.pwshLocation o.lookPath with
  | (none, tr1) =>
    (.error (.msg "Failed to locate a PowerShell binary".data), tr0 ++ tr1)
  | (some pwshPath, tr1) =>
    match resolveSudo s0.sudoLocation o.lookPath with
    | (none, tr2) =>
      (.error (.msg "Failed to locate a sudo binary".data), tr0 ++ tr1 ++ tr2)
    | (some none, tr2) =>
      let args : List Str := ["-NoExit".data, "-Command".data, "-".data]
      match o.startErr pwshPath args with
      | some m =>
        (.error (.wrap (.msg m) ["Failed to start powershell process".data, pwshPath]),
          tr0 ++ tr1 ++ tr2 ++ [.startProcessCall pwshPath args])
      | none =>
        (.ok { s0 with backend := some ⟨o.stdinClosable⟩, pwshLocation := pwshPath },
          tr0 ++ tr1 ++ tr2 ++ [.startProcessCall pwshPath args])
    | (some (some sudoPath), tr2) =>
      let args : List Str := [pwshPath, "-NoExit".data, "-Command".data, "-".data]
      match o.startErr sudoPath args with
      | some m =>
        (.error (.wrap (.msg m)
            ["Failed to start powershell process with sudo".data, sudoPath, pwshPath]),
          tr0 ++ tr1 ++ tr2 ++ [.startProcessCall sudoPath args])
      | none =>
        (.ok { s0 with
            backend := some ⟨o.stdinClosable⟩
            pwshLocation := pwshPath
            sudoLocation := sudoPath },
          tr0 ++ tr1 ++ tr2 ++ [.startProcessCall sudoPath args])

/-! ### Concrete fixtures (used by witnesses and counterexamples) -/

/-- An open shell whose backend has a closable stdin. -/
def openShell : Shell := ⟨some ⟨true⟩, [], true, [], [], []⟩

/-- A closed shell (nil backend). -/
def closedShell : Shell := ⟨none, [], true, [], [], []⟩

/-- A concrete 12-character hex draw. -/
def hexA : Str := "abcdef123456".data

/-- Another concrete 12-character hex draw. -/
def hexB : Str := "0123456789ab".data

/-- A call environment whose streams deliver "hi" / "eh" followed by the
boundaries, the stdout side split across chunks. -/
def envOkC1 : CmdEnv :=
  ⟨hexA, hexB, none,
   [.chunk ['h'], .chunk (['i'] ++ createBoundary hexA), .chunk (newLine false)], .hang,
   [.chunk ("eh".data ++ createBoundary hexB ++ newLine false)], .hang⟩

/-- A call environment whose stdout stream prints a ParserError message and
then hangs without ever producing the sentinel. -/
def envFatal : CmdEnv :=
  ⟨hexA, hexB, none, [.chunk "oops ParserError".data], .hang, [], .hang⟩

/-- A call environment whose stdout stream prints a ParserError message,
stalls for a poll interval, and only then delivers the sentinel — the
schedule under which the source's fatal watcher wins the race. -/
def envPauseFatal : CmdEnv :=
  ⟨hexA, hexB, none,
   [.chunk "oops ParserError".data, .pause, .chunk (createBoundary hexA ++ newLine false)], .hang,
   [.chunk (createBoundary hexB ++ newLine false)], .hang⟩

/-- A call environment whose stdout stream delivers partial output "abc"
and then fails with a read error. -/
def envReadErr : CmdEnv :=
  ⟨hexA, hexB, none, [.chunk "abc".data], .readErr "boom".data, [], .hang⟩

/-- A call environment whose stdin write fails. -/
def envWriteErr : CmdEnv :=
  ⟨hexA, hexB, some "broken pipe".data, [], .hang, [], .hang⟩

/-- A call environment delivering stdout "A" and empty stderr, cleanly
terminated by the boundaries. -/
def envOk1 : CmdEnv :=
  ⟨hexA, hexB, none,
   [.chunk ("A".data ++ createBoundary hexA ++ newLine false)], .hang,
   [.chunk (createBoundary hexB ++ newLine false)], .hang⟩

/-- A backend whose lookups and process starts all fail. -/
def oracleNone : BackendOracle := ⟨fun _ => none, fun _ _ => none, true⟩

/-- A backend that only finds the modern interpreter binary. -/
def oraclePwshOnly : BackendOracle :=
  ⟨fun n => if n = "pwsh".data then some "/usr/bin/pwsh".data else none,
   fun _ _ => none, true⟩

/-! ### Framing lemmas -/

/-- `strings.TrimSuffix` removes an actual suffix. -/
theorem trimSuffix_append (t m : Str) : trimSuffix (t ++ m) m = t := by
  have h : m <:+ t ++ m := ⟨t, rfl⟩
  rw [trimSuffix, if_pos h, List.length_append]
  have h2 : t.length + m.length - m.length = t.length := by omega
  rw [h2, List.take_left]

/-- The platform newline is never empty. -/
theorem newLine_ne_nil (win : Bool) : newLine win ≠ [] := by
  cases win <;> simp [newLine]

/-- The platform newline is one of the two literals fixed in `init`. -/
theorem newLine_cases (win : Bool) : newLine win = "\n".data ∨ newLine win = "\r\n".data := by
  cases win <;> simp [newLine]

/-- Key framing fact: if the captured text `t` does not contain the boundary
`b`, and `b` contains no newline character, then no proper prefix of
`t ++ b ++ nl` ends with the marker `b ++ nl` — so the reader can only stop
at the very end of the stream.  `nl` is one of the two platform newlines. -/
theorem marker_no_early (t b nl : Str) (hbt : ¬ b <:+: t) (hnb : '\n' ∉ b)
    (hnl : nl = "\n".data ∨ nl = "\r\n".data) :
    ∀ p, p <+: t ++ (b ++ nl) → (b ++ nl) <:+ p → p = t ++ (b ++ nl) := by
  intro p hpre hsuf
  obtain ⟨r, hr⟩ := hpre
  obtain ⟨q, hq⟩ := hsuf
  by_cases hrnil : r = []
  · rw [hrnil, List.append_nil] at hr; exact hr
  exfalso
  have hnlne : nl ≠ [] := by rcases hnl with h | h <;> simp [h]
  rw [← hq] at hr
  -- hr : (q ++ (b ++ nl)) ++ r = t ++ (b ++ nl)
  have hlen : q.length + r.length = t.length := by
    have h := congrArg List.length hr
    simp [List.length_append] at h
    omega
  have hrpos : 0 < r.length := List.length_pos.mpr hrnil
  have hq3 : q <+: t ++ (b ++ nl) := ⟨(b ++ nl) ++ r, by rw [← List.append_assoc]; exact hr⟩
  have ht3 : t <+: t ++ (b ++ nl) := ⟨b ++ nl, rfl⟩
  have hqt : q <+: t := List.prefix_of_prefix_length_le hq3 ht3 (by omega)
  obtain ⟨u, hu⟩ := hqt
  have hulen : q.length + u.length = t.length := by
    have h := congrArg List.length hu
    simp [List.length_append] at h
    omega
  have hune : u ≠ [] := by
    intro h
    rw [h, List.length_nil] at hulen
    omega
  have hupos : 0 < u.length := List.length_pos.mpr hune
  have hm : (b ++ nl) ++ r = u ++ (b ++ nl) := by
    have h : q ++ ((b ++ nl) ++ r) = q ++ (u ++ (b ++ nl)) := by
      rw [← List.append_assoc, hr, ← hu, List.append_assoc]
    exact List.append_cancel_left h
  by_cases hcase : (b ++ nl).length ≤ u.length
  · -- the marker fits before its own occurrence: b would occur inside t
    have hA : (b ++ nl) <+: u ++ (b ++ nl) := ⟨r, hm⟩
    have hB : u <+: u ++ (b ++ nl) := ⟨b ++ nl, rfl⟩
    have hmu : (b ++ nl) <+: u := List.prefix_of_prefix_length_le hA hB hcase
    have hbm : b <+: b ++ nl := ⟨nl, rfl⟩
    have hbu : b <+: u := List.IsPrefix.trans hbm hmu
    have hut : u <:+ t := ⟨q, hu⟩
    exact hbt (List.IsInfix.trans (List.IsPrefix.isInfix hbu) (List.IsSuffix.isInfix hut))
  · push_neg at hcase
    have hA2 : u <+: (b ++ nl) ++ r := ⟨b ++ nl, hm.symm⟩
    have hB2 : (b ++ nl) <+: (b ++ nl) ++ r := ⟨r, rfl⟩
    have huM : u <+: b ++ nl := List.prefix_of_prefix_length_le hA2 hB2 (le_of_lt hcase)
    obtain ⟨v, hv⟩ := huM
    have hvlen : u.length + v.length = (b ++ nl).length := by
      have h := congrArg List.length hv
      simp [List.length_append] at h
      simp [List.length_append]
      omega
    have hvne : v ≠ [] := by
      intro h
      rw [h, List.length_nil] at hvlen
      have h2 : (b ++ nl).length = b.length + nl.length := by simp [List.length_append]
      omega
    have hvpos : 0 < v.length := List.length_pos.mpr hvne
    have hv2 : v ++ r = b ++ nl := by
      have h : u ++ (v ++ r) = u ++ (b ++ nl) := by
        rw [← List.append_assoc, hv]
        exact hm
      exact List.append_cancel_left h
    have hmlast : (b ++ nl).getLast? = some '\n' := by
      rw [List.getLast?_append_of_ne_nil _ hnlne]
      rcases hnl with h | h <;> simp [h]
    have hvlast : v.getLast? = some '\n' := by
      have h : (u ++ v).getLast? = v.getLast? := List.getLast?_append_of_ne_nil u hvne
      rw [hv] at h
      rw [← h]
      exact hmlast
    have hvidx : v[v.length - 1]? = some '\n' := by
      rw [← List.getLast?_eq_getElem?]
      exact hvlast
    have hm_idx : (b ++ nl)[v.length - 1]? = some '\n' := by
      rw [← hv2, List.getElem?_append_left (by omega)]
      exact hvidx
    by_cases hpos : v.length - 1 < b.length
    · have hsplit : (b ++ nl)[v.length - 1]? = b[v.length - 1]? :=
        List.getElem?_append_left hpos
      have hbidx : b[v.length - 1]? = some '\n' := by
        rw [hsplit] at hm_idx
        exact hm_idx
      exact hnb (List.getElem?_mem hbidx)
    · push_neg at hpos
      have hnlidx : nl[v.length - 1 - b.length]? = some '\n' := by
        rw [← List.getElem?_append_right hpos]
        exact hm_idx
      have hj : v.length - 1 - b.length < nl.length - 1 := by
        have h : (b ++ nl).length = b.length + nl.length := by simp [List.length_append]
        omega
      rcases hnl with h | h
      · rw [h] at hj
        simp at hj
      · rw [h] at hj hnlidx
        have hj0 : v.length - 1 - b.length = 0 := by
          simp at hj
          omega
        rw [hj0] at hnlidx
        simp at hnlidx

/-- If the stream delivers exactly `S`, no proper prefix of `S` ends with
the marker, `S` does end with it, and the fatal marker "ParserError" occurs
nowhere in `S`, the reader loop resolves with `S` minus the marker —
however `S` is chunked, however many pauses are interleaved, and whatever
the stream would do afterwards. -/
theorem streamReaderGo_resolves (marker : Str) (hm : marker ≠ []) (S : Str)
    (hS : marker <:+ S)
    (hearly : ∀ p, p <+: S → marker <:+ p → p = S)
    (hnoFatal : ¬ parserErrorMark <:+: S) :
    ∀ (chunks : List ReadEvent) (acc : Str) (e : StreamEnd),
      acc ++ eventsBytes chunks = S → ¬ marker <:+ acc →
      streamReaderGo marker acc chunks e = .resolved (trimSuffix S marker) := by
  intro chunks
  induction chunks with
  | nil =>
    intro acc e hacc hnot
    exfalso
    simp only [eventsBytes, List.map_nil, List.flatten_nil, List.append_nil] at hacc
    exact hnot (hacc ▸ hS)
  | cons ev rest ih =>
    intro acc e hacc hnot
    have haccpre : acc <+: S := by
      exact ⟨eventsBytes (ev :: rest), hacc⟩
    have hnofacc : ¬ parserErrorMark <:+: acc := by
      intro hin
      exact hnoFatal (List.IsInfix.trans hin (List.IsPrefix.isInfix haccpre))
    cases ev with
    | chunk c =>
      have hacc2 : (acc ++ c) ++ eventsBytes rest = S := by
        have h : eventsBytes (ReadEvent.chunk c :: rest) = c ++ eventsBytes rest := by
          simp [eventsBytes, eventData]
        rw [h] at hacc
        simpa [List.append_assoc] using hacc
      have hcons : streamReaderGo marker acc (ReadEvent.chunk c :: rest) e =
          if marker <:+ (acc ++ c) then .resolved (trimSuffix (acc ++ c) marker)
          else streamReaderGo marker (acc ++ c) rest e := rfl
      by_cases h : marker <:+ (acc ++ c)
      · have heq : acc ++ c = S := hearly _ ⟨eventsBytes rest, hacc2⟩ h
        rw [hcons, if_pos h, heq]
      · rw [hcons, if_neg h]
        exact ih (acc ++ c) e hacc2 h
    | pause =>
      have hacc2 : acc ++ eventsBytes rest = S := by
        have h : eventsBytes (ReadEvent.pause :: rest) = eventsBytes rest := by
          simp [eventsBytes, eventData]
        rw [h] at hacc
        exact hacc
      have hcons : streamReaderGo marker acc (ReadEvent.pause :: rest) e =
          if parserErrorMark <:+: acc then .rejected acc
          else streamReaderGo marker acc rest e := rfl
      rw [hcons, if_neg hnofacc]
      exact ih acc e hacc2 hnot

/-- A hex-alphabet character is not a newline character. -/
theorem hexChar_ne_newline {c : Char} (h : c ∈ hexAlphabet) : c ≠ '\n' := by
  intro he
  rw [he] at h
  exact absurd h (by decide)

/-- A boundary built from hex-alphabet characters contains no newline
character. -/
theorem boundary_no_newline (hex : Str) (h : ∀ c ∈ hex, c ∈ hexAlphabet) :
    '\n' ∉ createBoundary hex := by
  intro hmem
  rw [createBoundary] at hmem
  rcases List.mem_append.mp hmem with hmem2 | hmem2
  · rcases List.mem_append.mp hmem2 with hmem3 | hmem3
    · exact absurd hmem3 (by decide)
    · exact hexChar_ne_newline (h _ hmem3) rfl
  · exact absurd hmem2 (by decide)

/-- The fatal marker cannot occur inside a boundary-plus-newline tail: the
marker holds an uppercase letter while the tail only ever holds the chars
of "$gopwsh", lowercase hex digits, a dollar sign and newline chars. -/
theorem parser_not_in_tail (hex nl : Str) (hhex : ∀ c ∈ hex, c ∈ hexAlphabet)
    (hnl : nl = "\n".data ∨ nl = "\r\n".data) :
    ¬ parserErrorMark <:+: (createBoundary hex ++ nl) := by
  intro h
  have hPmem : 'P' ∈ parserErrorMark := by decide
  have hP : 'P' ∈ createBoundary hex ++ nl := h.subset hPmem
  rcases List.mem_append.mp hP with h1 | h1
  · rw [createBoundary] at h1
    rcases List.mem_append.mp h1 with h2 | h2
    · rcases List.mem_append.mp h2 with h3 | h3
      · exact absurd h3 (by decide)
      · exact absurd (hhex _ h3) (by decide)
    · exact absurd h2 (by decide)
  · rcases hnl with h2 | h2 <;> rw [h2] at h1 <;> exact absurd h1 (by decide)

/-- If the captured text does not contain the fatal marker, the boundary
starts with a dollar sign (which the marker does not contain), and the
marker does not occur in the boundary-plus-newline tail, then the marker
occurs nowhere in the whole stream: an occurrence can sit neither inside
the text, nor inside the tail, nor straddle the junction, whose char is
the dollar sign. -/
theorem parser_not_in_stream (t b nl : Str)
    (hmt : ¬ parserErrorMark <:+: t)
    (hb : ∃ bb : Str, b = '$' :: bb)
    (hub : ¬ parserErrorMark <:+: (b ++ nl)) :
    ¬ parserErrorMark <:+: (t ++ (b ++ nl)) := by
  intro h
  obtain ⟨s₁, s₂, hS⟩ := h
  by_cases h1 : s₁.length + parserErrorMark.length ≤ t.length
  · have hpre1 : (s₁ ++ parserErrorMark) <+: t ++ (b ++ nl) := ⟨s₂, hS⟩
    have hpre2 : t <+: t ++ (b ++ nl) := ⟨b ++ nl, rfl⟩
    have hpt : (s₁ ++ parserErrorMark) <+: t :=
      List.prefix_of_prefix_length_le hpre1 hpre2 (by simpa [List.length_append] using h1)
    obtain ⟨w, hw⟩ := hpt
    exact hmt ⟨s₁, w, hw⟩
  · by_cases h2 : t.length ≤ s₁.length
    · have hS2 : s₁ ++ (parserErrorMark ++ s₂) = t ++ (b ++ nl) := by
        rw [← hS]
        simp [List.append_assoc]
      have hpre1 : s₁ <+: t ++ (b ++ nl) := ⟨parserErrorMark ++ s₂, hS2⟩
      have hpre2 : t <+: t ++ (b ++ nl) := ⟨b ++ nl, rfl⟩
      have hts : t <+: s₁ := List.prefix_of_prefix_length_le hpre2 hpre1 h2
      obtain ⟨w, hw⟩ := hts
      have hcut : w ++ parserErrorMark ++ s₂ = b ++ nl := by
        have hh : t ++ (w ++ parserErrorMark ++ s₂) = t ++ (b ++ nl) := by
          rw [← hS2, ← hw]
          simp [List.append_assoc]
        exact List.append_cancel_left hh
      exact hub ⟨w, s₂, hcut⟩
    · push_neg at h1 h2
      obtain ⟨bb, hbb⟩ := hb
      have hidx1 : (t ++ (b ++ nl))[t.length]? = some '$' := by
        rw [List.getElem?_append_right (le_refl t.length)]
        simp [hbb]
      have hS2 : s₁ ++ (parserErrorMark ++ s₂) = t ++ (b ++ nl) := by
        rw [← hS]
        simp [List.append_assoc]
      have hidx2 : (t ++ (b ++ nl))[t.length]? = parserErrorMark[t.length - s₁.length]? := by
        rw [← hS2, List.getElem?_append_right (le_of_lt h2),
          List.getElem?_append_left (by omega)]
      have hPidx : parserErrorMark[t.length - s₁.length]? = some '$' := by
        rw [← hidx2]
        exact hidx1
      have hdm : '$' ∈ parserErrorMark := List.getElem?_mem hPidx
      exact absurd hdm (by decide)

/-- `streamReader` round-trip: when the stream carries `text` followed by
the boundary and newline, `text` does not contain the boundary, and the
fatal marker occurs nowhere in the stream, the reader resolves with
exactly `text` regardless of the chunking, of interleaved pauses, and of
what the stream would have done next. -/
theorem streamReader_resolved (win : Bool) (t b : Str) (chunks : List ReadEvent) (e : StreamEnd)
    (hbt : ¬ b <:+: t) (hnb : '\n' ∉ b)
    (hnoFatal : ¬ parserErrorMark <:+: (t ++ b ++ newLine win))
    (hjoin : eventsBytes chunks = t ++ b ++ newLine win) :
    streamReader chunks e b win = .resolved t := by
  have hmne : b ++ newLine win ≠ [] := by
    intro h
    rw [List.append_eq_nil] at h
    exact newLine_ne_nil win h.2
  have hS : (b ++ newLine win) <:+ t ++ (b ++ newLine win) := ⟨t, rfl⟩
  have hearly := marker_no_early t b (newLine win) hbt hnb (newLine_cases win)
  have hnf2 : ¬ parserErrorMark <:+: (t ++ (b ++ newLine win)) := by
    rw [List.append_assoc] at hnoFatal
    exact hnoFatal
  have hnotnil : ¬ (b ++ newLine win) <:+ ([] : Str) := by
    intro hc
    exact hmne (List.suffix_nil.mp hc)
  have h := streamReaderGo_resolves (b ++ newLine win) hmne (t ++ (b ++ newLine win)) hS hearly
    hnf2 chunks [] e (by simpa [List.append_assoc] using hjoin) hnotnil
  rw [streamReader, h, trimSuffix_append]

/-! ### Shell-level helper lemmas -/

/-- A closed shell rejects `execute` immediately, with no I/O. -/
theorem execute_closed (s : Shell) (hs : s.backend = none) (cmd : Str) (e : CmdEnv) (win : Bool) :
    s.execute cmd e win = some ⟨s, [], [], some (.wrap (.msg closedShellMsg) [cmd]), []⟩ := by
  unfold Shell.execute
  rw [hs]

/-- A closed shell rejects any non-empty `Execute`, with no I/O. -/
theorem Execute_closed (s : Shell) (hs : s.backend = none) (cmd : Str) (e : CmdEnv)
    (rest : List (Str × CmdEnv)) (win : Bool) :
    Shell.Execute s ((cmd, e) :: rest) win =
      some ⟨s, [], [],
        some (.wrap (.wrap (.msg closedShellMsg) [cmd]) ["failed to execute".data, cmd]), []⟩ := by
  unfold Shell.Execute
  rw [execute_closed s hs]

/-- Successful single-command execution, given both stream readers
resolve. -/
theorem execute_streams_ok (s : Shell) (b : Backend) (hs : s.backend = some b)
    (cmd : Str) (e : CmdEnv) (win : Bool) (hw : e.writeErr = none) (sout serr : Str)
    (hres : fastAllOrError (streamReader e.outChunks e.outEnd (createBoundary e.hexOut) win)
        (streamReader e.errChunks e.errEnd (createBoundary e.hexErr) win) = .ok sout serr) :
    s.execute cmd e win = some ⟨s, sout, serr, none,
      [.stdinWrite (framedCommand cmd (createBoundary e.hexOut) (createBoundary e.hexErr) win),
       .stdoutRead, .stderrRead]⟩ := by
  simp only [Shell.execute, hs, hw, hres]

/-- Single-command execution when the stdin write fails: wrapped error, one
single write attempted, session not closed. -/
theorem execute_write_err (s : Shell) (b : Backend) (hs : s.backend = some b)
    (cmd : Str) (e : CmdEnv) (win : Bool) (w : Str) (hw : e.writeErr = some w) :
    s.execute cmd e win = some ⟨s, [], [],
      some (.wrap (.msg w) ["Could not send PowerShell command".data, cmd]),
      [.stdinWrite (framedCommand cmd (createBoundary e.hexOut) (createBoundary e.hexErr) win)]⟩ := by
  simp only [Shell.execute, hs, hw]

/-- Single-command execution when the stream phase fails with a message
containing the fatal marker: the session is closed (via the `Exit` actions)
before the wrapped error is returned. -/
theorem execute_streams_err_fatal (s : Shell) (b : Backend) (hs : s.backend = some b)
    (cmd : Str) (e : CmdEnv) (win : Bool) (hw : e.writeErr = none) (m : Str)
    (hres : fastAllOrError (streamReader e.outChunks e.outEnd (createBoundary e.hexOut) win)
        (streamReader e.errChunks e.errEnd (createBoundary e.hexErr) win) = .err m)
    (hfatal : parserErrorMark <:+: m) :
    s.execute cmd e win = some ⟨{ s with backend := none }, [], [],
      some (.wrap (.msg m) ["Failed to read stdout/stderr steams".data]),
      [.stdinWrite (framedCommand cmd (createBoundary e.hexOut) (createBoundary e.hexErr) win),
       .stdoutRead, .stderrRead] ++
        (IOAction.stdinWrite (exitCmdText win) ::
          ((if b.stdinClosable then [IOAction.stdinClose] else []) ++ [IOAction.waitProc]))⟩ := by
  simp only [Shell.execute, hs, hw, hres, if_pos hfatal]

/-- Single-command execution when the stream phase fails with a message not
containing the fatal marker: wrapped error, session left open. -/
theorem execute_streams_err_nonfatal (s : Shell) (b : Backend) (hs : s.backend = some b)
    (cmd : Str) (e : CmdEnv) (win : Bool) (hw : e.writeErr = none) (m : Str)
    (hres : fastAllOrError (streamReader e.outChunks e.outEnd (createBoundary e.hexOut) win)
        (streamReader e.errChunks e.errEnd (createBoundary e.hexErr) win) = .err m)
    (hfatal : ¬ parserErrorMark <:+: m) :
    s.execute cmd e win = some ⟨s, [], [],
      some (.wrap (.msg m) ["Failed to read stdout/stderr steams".data]),
      [.stdinWrite (framedCommand cmd (createBoundary e.hexOut) (createBoundary e.hexErr) win),
       .stdoutRead, .stderrRead]⟩ := by
  simp only [Shell.execute, hs, hw, hres, if_neg hfatal]

/-- Single-command execution never returns when both streams hang without a
fatal marker. -/
theorem execute_hang (s : Shell) (b : Backend) (hs : s.backend = some b)
    (cmd : Str) (e : CmdEnv) (win : Bool) (hw : e.writeErr = none)
    (hres : fastAllOrError (streamReader e.outChunks e.outEnd (createBoundary e.hexOut) win)
        (streamReader e.errChunks e.errEnd (createBoundary e.hexErr) win) = .hang) :
    s.execute cmd e win = none := by
  simp only [Shell.execute, hs, hw, hres]

/-- Whenever `execute` returns an error, the stdout/stderr strings it
returns are empty: partial output of the failing command is discarded. -/
theorem execute_err_empty (s : Shell) (cmd : Str) (e : CmdEnv) (win : Bool) (r : ExecResult)
    (h : s.execute cmd e win = some r) (u : GoErr) (he : r.err = some u) :
    r.stdout = [] ∧ r.stderr = [] := by
  cases hb : s.backend with
  | none =>
    rw [execute_closed s hb cmd e win] at h
    injection h with h2
    rw [← h2]
    exact ⟨rfl, rfl⟩
  | some b =>
    cases hwv : e.writeErr with
    | some w =>
      rw [execute_write_err s b hb cmd e win w hwv] at h
      injection h with h2
      rw [← h2]
      exact ⟨rfl, rfl⟩
    | none =>
      cases hfv : fastAllOrError (streamReader e.outChunks e.outEnd (createBoundary e.hexOut) win)
          (streamReader e.errChunks e.errEnd (createBoundary e.hexErr) win) with
      | ok a c =>
        rw [execute_streams_ok s b hb cmd e win hwv a c hfv] at h
        injection h with h2
        rw [← h2] at he
        exact absurd he (by simp)
      | err m =>
        by_cases hf : parserErrorMark <:+: m
        · rw [execute_streams_err_fatal s b hb cmd e win hwv m hfv hf] at h
          injection h with h2
          rw [← h2]
          exact ⟨rfl, rfl⟩
        · rw [execute_streams_err_nonfatal s b hb cmd e win hwv m hfv hf] at h
          injection h with h2
          rw [← h2]
          exact ⟨rfl, rfl⟩
      | hang =>
        rw [execute_hang s b hb cmd e win hwv hfv] at h
        exact absurd h (by simp)

/-- `Execute` unfolding when the head command succeeds: its outputs are
prepended to whatever the remaining commands produce. -/
theorem Execute_cons_ok (s : Shell) (cmd : Str) (e : CmdEnv) (rest : List (Str × CmdEnv))
    (win : Bool) (r : ExecResult) (h : s.execute cmd e win = some r) (he : r.err = none) :
    Shell.Execute s ((cmd, e) :: rest) win =
      (Shell.Execute r.shell rest win).map
        (fun q => ⟨q.shell, r.stdout ++ q.stdout, r.stderr ++ q.stderr, q.err, r.trace ++ q.trace⟩) := by
  have hcons : Shell.Execute s ((cmd, e) :: rest) win =
      match s.execute cmd e win with
      | none => none
      | some r =>
        match r.err with
        | some u =>
          some ⟨r.shell, r.stdout, r.stderr,
            some (.wrap u ["failed to execute".data, cmd]), r.trace⟩
        | none =>
          match r.shell.Execute rest win with
          | none => none
          | some q =>
            some ⟨q.shell, r.stdout ++ q.stdout, r.stderr ++ q.stderr, q.err,
              r.trace ++ q.trace⟩ := rfl
  rw [hcons, h]
  cases hq : Shell.Execute r.shell rest win with
  | none => simp [he, hq]
  | some q => simp [he, hq]

/-- `Execute` unfolding when the head command fails: the loop stops and the
error is wrapped with the offending command. -/
theorem Execute_cons_err (s : Shell) (cmd : Str) (e : CmdEnv) (rest : List (Str × CmdEnv))
    (win : Bool) (r : ExecResult) (u : GoErr) (h : s.execute cmd e win = some r)
    (he : r.err = some u) :
    Shell.Execute s ((cmd, e) :: rest) win =
      some ⟨r.shell, r.stdout, r.stderr,
        some (.wrap u ["failed to execute".data, cmd]), r.trace⟩ := by
  have hcons : Shell.Execute s ((cmd, e) :: rest) win =
      match s.execute cmd e win with
      | none => none
      | some r =>
        match r.err with
        | some u =>
          some ⟨r.shell, r.stdout, r.stderr,
            some (.wrap u ["failed to execute".data, cmd]), r.trace⟩
        | none =>
          match r.shell.Execute rest win with
          | none => none
          | some q =>
            some ⟨q.shell, r.stdout ++ q.stdout, r.stderr ++ q.stderr, q.err,
              r.trace ++ q.trace⟩ := rfl
  rw [hcons, h]
  simp [he]

/-- `strings.ReplaceAll` with the one-character pattern `"'"` doubles each
embedded single quote. -/
theorem replaceAll_quote (s : Str) :
    replaceAll s [sq] [sq, sq] = (s.map (fun c => if c = sq then [sq, sq] else [c])).flatten := by
  induction s with
  | nil => simp [replaceAll]
  | cons c rest ih =>
    by_cases hc : c = sq
    · subst hc
      have hcnd : ([sq] ≠ [] ∧ [sq] <+: sq :: rest) := ⟨by simp, ⟨rest, rfl⟩⟩
      simp only [replaceAll, dif_pos hcnd, List.length_cons, List.length_nil, List.drop_succ_cons,
        List.drop_zero, List.map_cons, List.flatten_cons, if_pos rfl]
      rw [ih]
      simp
    · have hcnd : ¬ ([sq] ≠ [] ∧ [sq] <+: c :: rest) := by
        intro hand
        obtain ⟨tl, htl⟩ := hand.2
        have : c = sq := by
          have h := congrArg (fun l => l.head?) htl
          simpa using h.symm
        exact hc this
      simp only [replaceAll, dif_neg hcnd, List.map_cons, List.flatten_cons, if_neg hc]
      rw [ih]
      simp

/-! ### Claims -/

/-- Claim C9 (confirmed): for every input string `s`, `QuoteArg s` is a
single quote, then `s` with every embedded single quote doubled, then a
closing single quote; in particular `QuoteArg "a'b" = 'a''b'` and
`QuoteArg "" = ''`. -/
theorem C9_quote_arg :
    (∀ s : Str, QuoteArg s =
      [sq] ++ (s.map (fun c => if c = sq then [sq, sq] else [c])).flatten ++ [sq])
    ∧ QuoteArg ['a', sq, 'b'] = [sq, 'a', sq, sq, 'b', sq]
    ∧ QuoteArg [] = [sq, sq] := by
  have hgen : ∀ s : Str, QuoteArg s =
      [sq] ++ (s.map (fun c => if c = sq then [sq, sq] else [c])).flatten ++ [sq] := by
    intro s
    rw [QuoteArg, replaceAll_quote]
  refine ⟨hgen, ?_, ?_⟩
  · rw [hgen]
    decide
  · rw [hgen]
    rfl

/-- Claim C10 (confirmed): `Execute` with zero commands returns empty
stdout, empty stderr and a nil error, performing no I/O — for every shell,
including a closed one, where no closed-session error is produced. -/
theorem C10_empty_execute :
    (∀ (s : Shell) (win : Bool), Shell.Execute s [] win = some ⟨s, [], [], none, []⟩)
    ∧ Shell.Execute closedShell [] false = some ⟨closedShell, [], [], none, []⟩ :=
  ⟨fun _ _ => rfl, rfl⟩

/-- Claim C7 (confirmed): `Exit` on a closed session is a no-op with no
actions; on an open session it writes `exit`+newline, closes stdin if the
backend's stdin is closable, waits for the process, and releases the
backend; an exited session's backend is always gone, a second `Exit` is a
no-op, and no `execute`/`Execute` call on a closed session ever reopens
it. -/
theorem C7_close_idempotent : ∀ (win : Bool) (s : Shell) (b : Backend),
    (s.backend = none → Shell.Exit s win = (s, [])) ∧
    (s.backend = some b → Shell.Exit s win =
      ({ s with backend := none },
        IOAction.stdinWrite (exitCmdText win) ::
          ((if b.stdinClosable then [IOAction.stdinClose] else []) ++ [IOAction.waitProc]))) ∧
    ((Shell.Exit s win).1.backend = none) ∧
    (Shell.Exit (Shell.Exit s win).1 win = ((Shell.Exit s win).1, [])) ∧
    (∀ (cmd : Str) (e : CmdEnv) (r : ExecResult), s.backend = none →
      s.execute cmd e win = some r → r.shell.backend = none) ∧
    (∀ (items : List (Str × CmdEnv)) (q : ExecResult), s.backend = none →
      Shell.Execute s items win = some q → q.shell.backend = none) := by
  intro win s b
  refine ⟨?_, ?_, ?_, ?_, ?_, ?_⟩
  · intro h
    simp [Shell.Exit, h]
  · intro h
    simp [Shell.Exit, h]
  · cases hb : s.backend <;> simp [Shell.Exit, hb]
  · cases hb : s.backend <;> simp [Shell.Exit, hb]
  · intro cmd e r h hex
    rw [execute_closed s h cmd e win] at hex
    injection hex with hex2
    rw [← hex2]
    exact h
  · intro items q h hexe
    cases items with
    | nil =>
      have hnil : Shell.Execute s [] win = some ⟨s, [], [], none, []⟩ := rfl
      rw [hnil] at hexe
      injection hexe with hexe2
      rw [← hexe2]
      exact h
    | cons p rest =>
      obtain ⟨cmd, e⟩ := p
      rw [Execute_closed s h cmd e rest win] at hexe
      injection hexe with hexe2
      rw [← hexe2]
      exact h

/-- Concrete instantiation of `C7_close_idempotent`: `Exit` on the concrete
closed shell is a no-op, and on the concrete open shell performs the
exit-write/close/wait sequence and nulls the backend. -/
theorem C7_witness :
    Shell.Exit closedShell false = (closedShell, []) ∧
    Shell.Exit openShell false =
      (closedShell,
        [IOAction.stdinWrite (exitCmdText false), IOAction.stdinClose, IOAction.waitProc]) := by
  constructor
  · exact (C7_close_idempotent false closedShell ⟨true⟩).1 rfl
  · exact (C7_close_idempotent false openShell ⟨true⟩).2.1 rfl

/-- Claim C4 (corrected: restricted to calls naming at least one command —
`Execute` with zero commands returns a nil error even on a closed session):
every `Execute` call with at least one command against a closed session
fails immediately with the closed-shell error, wrapped with the offending
command, and performs no I/O (empty action trace). -/
theorem C4_closed_rejection : ∀ (win : Bool) (s : Shell) (cmd : Str) (e : CmdEnv)
    (rest : List (Str × CmdEnv)), s.backend = none →
    Shell.Execute s ((cmd, e) :: rest) win =
      some ⟨s, [], [],
        some (.wrap (.wrap (.msg closedShellMsg) [cmd]) ["failed to execute".data, cmd]), []⟩ := by
  intro win s cmd e rest h
  exact Execute_closed s h cmd e rest win

/-- Concrete instantiation of `C4_closed_rejection`. -/
theorem C4_witness :
    Shell.Execute closedShell [("Get-Date".data, envOk1)] false =
      some ⟨closedShell, [], [],
        some (.wrap (.wrap (.msg closedShellMsg) ["Get-Date".data])
          ["failed to execute".data, "Get-Date".data]), []⟩ :=
  C4_closed_rejection false closedShell "Get-Date".data envOk1 [] rfl

/-- Counterexample to claim C4 as stated: an `Execute` call with zero
commands against a closed session does not fail — it returns a nil error
(and an empty trace), not the closed-session error. -/
theorem C4_counterexample :
    (Shell.Execute closedShell [] false).map (fun r => r.err) = some none ∧
    (Shell.Execute closedShell [] false).map (fun r => r.trace) = some [] :=
  ⟨rfl, rfl⟩

/-- Claim C2 (corrected: "every subsequent Execute call" must exclude the
zero-command call, which returns a nil error even on the closed session):
when the stream phase of a call fails with a message containing
"ParserError", the session's backend is released before the wrapped error
is returned (the `Exit` write/close/wait actions appear in the trace before
the call returns), and every subsequent `Execute` naming at least one
command fails with the closed-session error and performs no I/O; a stream
failure whose message does not contain the marker is propagated wrapped
with the session left open. -/
theorem C2_fatal_closure : ∀ (win : Bool) (s : Shell) (b : Backend) (cmd : Str)
    (e : CmdEnv) (m : Str),
    s.backend = some b → e.writeErr = none →
    fastAllOrError (streamReader e.outChunks e.outEnd (createBoundary e.hexOut) win)
        (streamReader e.errChunks e.errEnd (createBoundary e.hexErr) win) = .err m →
    ((parserErrorMark <:+: m →
        s.execute cmd e win = some ⟨{ s with backend := none }, [], [],
          some (.wrap (.msg m) ["Failed to read stdout/stderr steams".data]),
          [.stdinWrite (framedCommand cmd (createBoundary e.hexOut) (createBoundary e.hexErr) win),
           .stdoutRead, .stderrRead] ++
            (IOAction.stdinWrite (exitCmdText win) ::
              ((if b.stdinClosable then [IOAction.stdinClose] else []) ++ [IOAction.waitProc]))⟩)
     ∧ (parserErrorMark <:+: m → ∀ (cmd2 : Str) (e2 : CmdEnv) (rest2 : List (Str × CmdEnv)),
          Shell.Execute { s with backend := none } ((cmd2, e2) :: rest2) win =
            some ⟨{ s with backend := none }, [], [],
              some (.wrap (.wrap (.msg closedShellMsg) [cmd2])
                ["failed to execute".data, cmd2]), []⟩)
     ∧ (¬ parserErrorMark <:+: m →
          s.execute cmd e win = some ⟨s, [], [],
            some (.wrap (.msg m) ["Failed to read stdout/stderr steams".data]),
            [.stdinWrite (framedCommand cmd (createBoundary e.hexOut) (createBoundary e.hexErr) win),
             .stdoutRead, .stderrRead]⟩)) := by
  intro win s b cmd e m hs hw hres
  refine ⟨fun hf => execute_streams_err_fatal s b hs cmd e win hw m hres hf,
          fun _ cmd2 e2 rest2 => Execute_closed _ rfl cmd2 e2 rest2 win,
          fun hnf => execute_streams_err_nonfatal s b hs cmd e win hw m hres hnf⟩

/-- Concrete instantiation of `C2_fatal_closure`: a hanging stdout stream
carrying "oops ParserError" closes the session (backend gone, exit actions
traced) and a subsequent one-command `Execute` is rejected without I/O. -/
theorem C2_witness :
    (fastAllOrError
        (streamReader envFatal.outChunks envFatal.outEnd (createBoundary envFatal.hexOut) false)
        (streamReader envFatal.errChunks envFatal.errEnd (createBoundary envFatal.hexErr) false) =
      .err "oops ParserError".data) ∧
    Shell.execute openShell "badcmd(".data envFatal false =
      some ⟨closedShell, [], [],
        some (.wrap (.msg "oops ParserError".data) ["Failed to read stdout/stderr steams".data]),
        [.stdinWrite (framedCommand "badcmd(".data (createBoundary hexA) (createBoundary hexB) false),
         .stdoutRead, .stderrRead, .stdinWrite (exitCmdText false), .stdinClose, .waitProc]⟩ ∧
    Shell.Execute closedShell [("Get-ChildItem".data, envOk1)] false =
      some ⟨closedShell, [], [],
        some (.wrap (.wrap (.msg closedShellMsg) ["Get-ChildItem".data])
          ["failed to execute".data, "Get-ChildItem".data]), []⟩ := by
  have h := C2_fatal_closure false openShell ⟨true⟩ "badcmd(".data envFatal
    "oops ParserError".data rfl rfl (by decide)
  exact ⟨by decide, h.1 (by decide), h.2.1 (by decide) "Get-ChildItem".data envOk1 []⟩

/-- Counterexample to claim C2 as stated: the fatal call does close the
session, but the subsequent `Execute` call with zero commands returns a nil
error rather than the closed-session error. -/
theorem C2_counterexample :
    (Shell.execute openShell "badcmd(".data envFatal false).map (fun r => r.shell.backend) =
      some none ∧
    (Shell.Execute closedShell [] false).map (fun r => r.err) = some none := by
  exact ⟨by decide, rfl⟩

/-- Claim C3 (corrected: the failing command's partial output is NOT
included in the returned strings — `execute` returns empty stdout/stderr on
any failure, so `Execute` returns only the output of the preceding
successful commands): `Execute` runs the commands in order through the
single-command protocol, concatenating per-command stdout and stderr; it
stops at the first failing command, whose error is returned wrapped with
the command text, and that failing command contributes empty strings to the
accumulated output. -/
theorem C3_multi_command : ∀ (win : Bool) (s : Shell) (cmd : Str) (e : CmdEnv)
    (rest : List (Str × CmdEnv)) (r : ExecResult),
    (s.execute cmd e win = some r → r.err = none →
      Shell.Execute s ((cmd, e) :: rest) win =
        (Shell.Execute r.shell rest win).map
          (fun q => ⟨q.shell, r.stdout ++ q.stdout, r.stderr ++ q.stderr, q.err,
            r.trace ++ q.trace⟩)) ∧
    (∀ u : GoErr, s.execute cmd e win = some r → r.err = some u →
      Shell.Execute s ((cmd, e) :: rest) win =
        some ⟨r.shell, r.stdout, r.stderr,
          some (.wrap u ["failed to execute".data, cmd]), r.trace⟩ ∧
      r.stdout = [] ∧ r.stderr = []) := by
  intro win s cmd e rest r
  constructor
  · intro h he
    exact Execute_cons_ok s cmd e rest win r h he
  · intro u h he
    exact ⟨Execute_cons_err s cmd e rest win r u h he, execute_err_empty s cmd e win r h u he⟩

/-- Concrete instantiation of `C3_multi_command` (failure branch): a
command whose stdout stream fails mid-way stops the loop with the wrapped,
command-identifying error and contributes no output. -/
theorem C3_witness :
    Shell.Execute openShell [("cmdTwo".data, envReadErr)] false =
      some ⟨openShell, [], [],
        some (.wrap (.wrap (.msg ("failed to read stream".data ++ ": ".data ++ "boom".data))
          ["Failed to read stdout/stderr steams".data]) ["failed to execute".data, "cmdTwo".data]),
        [.stdinWrite (framedCommand "cmdTwo".data (createBoundary hexA) (createBoundary hexB) false),
         .stdoutRead, .stderrRead]⟩ := by
  have h := (C3_multi_command false openShell "cmdTwo".data envReadErr []
    ⟨openShell, [], [],
      some (.wrap (.msg ("failed to read stream".data ++ ": ".data ++ "boom".data))
        ["Failed to read stdout/stderr steams".data]),
      [.stdinWrite (framedCommand "cmdTwo".data (createBoundary hexA) (createBoundary hexB) false),
       .stdoutRead, .stderrRead]⟩).2
    (.wrap (.msg ("failed to read stream".data ++ ": ".data ++ "boom".data))
      ["Failed to read stdout/stderr steams".data]) (by decide) rfl
  exact h.1

/-- Counterexample to claim C3 as stated: with a first command printing "A"
and a second command whose stdout stream delivers partial output "abc" and
then fails, `Execute` returns stdout "A" — the failing command's partial
output "abc" is absent from the returned string. -/
theorem C3_counterexample :
    (Shell.Execute openShell [("cmdOne".data, envOk1), ("cmdTwo".data, envReadErr)] false).map
      (fun r => (r.stdout, r.stderr)) = some ("A".data, []) ∧
    "A".data ≠ "A".data ++ "abc".data := by
  exact ⟨by decide, by decide⟩

/-- Claim C5 (confirmed): the bytes written to stdin for a command are
exactly the command text followed by `; echo '<outSentinel>';
[Console]::Error.WriteLine('<errSentinel>')` and the platform newline, sent
as one single write (the write-failure trace is exactly that one write, and
the successful trace contains exactly that one write before the stream
reads); a failed write returns a wrapped error without closing the
session. -/
theorem C5_wire_format : ∀ (win : Bool) (s : Shell) (b : Backend) (cmd : Str) (e : CmdEnv),
    s.backend = some b →
    (framedCommand cmd (createBoundary e.hexOut) (createBoundary e.hexErr) win =
      cmd ++ "; echo ".data ++ [sq] ++ createBoundary e.hexOut ++ [sq] ++
        "; [Console]::Error.WriteLine(".data ++ [sq] ++ createBoundary e.hexErr ++ [sq] ++
        [')'] ++ newLine win) ∧
    (∀ w : Str, e.writeErr = some w →
      s.execute cmd e win = some ⟨s, [], [],
        some (.wrap (.msg w) ["Could not send PowerShell command".data, cmd]),
        [.stdinWrite (framedCommand cmd (createBoundary e.hexOut) (createBoundary e.hexErr) win)]⟩) ∧
    (∀ sout serr : Str, e.writeErr = none →
      fastAllOrError (streamReader e.outChunks e.outEnd (createBoundary e.hexOut) win)
          (streamReader e.errChunks e.errEnd (createBoundary e.hexErr) win) = .ok sout serr →
      s.execute cmd e win = some ⟨s, sout, serr, none,
        [.stdinWrite (framedCommand cmd (createBoundary e.hexOut) (createBoundary e.hexErr) win),
         .stdoutRead, .stderrRead]⟩) := by
  intro win s b cmd e hs
  refine ⟨rfl, ?_, ?_⟩
  · intro w hw
    exact execute_write_err s b hs cmd e win w hw
  · intro sout serr hw hres
    exact execute_streams_ok s b hs cmd e win hw sout serr hres

/-- Concrete instantiation of `C5_wire_format`: the write-failure path
performs exactly the single framed write and leaves the session open; the
success path performs that write followed by the two stream reads. -/
theorem C5_witness :
    Shell.execute openShell "Get-Date".data envWriteErr false =
      some ⟨openShell, [], [],
        some (.wrap (.msg "broken pipe".data)
          ["Could not send PowerShell command".data, "Get-Date".data]),
        [.stdinWrite (framedCommand "Get-Date".data (createBoundary hexA)
          (createBoundary hexB) false)]⟩ ∧
    Shell.execute openShell "Get-Date".data envOk1 false =
      some ⟨openShell, "A".data, [], none,
        [.stdinWrite (framedCommand "Get-Date".data (createBoundary hexA)
          (createBoundary hexB) false),
         .stdoutRead, .stderrRead]⟩ := by
  have h1 := C5_wire_format false openShell ⟨true⟩ "Get-Date".data envWriteErr rfl
  have h2 := C5_wire_format false openShell ⟨true⟩ "Get-Date".data envOk1 rfl
  exact ⟨h1.2.1 "broken pipe".data rfl, h2.2.2 "A".data [] rfl (by decide)⟩

/-- Claim C6 (confirmed): a sentinel built from a 12-character draw over
the hex alphabet is exactly `'$'`, the namespace "gopwsh", the 12 hex
characters, and a closing `'$'`, of total length 20; and every
single-command cycle mints two sentinels — its framed stdin write carries
`createBoundary` of the call's stdout draw and of its (separate) stderr
draw.  Freshness per call and per stream is represented by the two
per-call draws `e.hexOut`/`e.hexErr` consumed by each `execute`
invocation. -/
theorem C6_sentinel_format : ∀ (hex : Str), hex.length = 12 → (∀ c ∈ hex, c ∈ hexAlphabet) →
    (createBoundary hex = '$' :: ("gopwsh".data ++ hex ++ ['$'])) ∧
    ((createBoundary hex).length = 20) ∧
    (∀ (win : Bool) (s : Shell) (cmd : Str) (e : CmdEnv) (r : ExecResult),
      s.backend ≠ none → s.execute cmd e win = some r →
      r.trace.head? = some (.stdinWrite
        (framedCommand cmd (createBoundary e.hexOut) (createBoundary e.hexErr) win))) := by
  intro hex hlen hmem
  refine ⟨?_, ?_, ?_⟩
  · simp [createBoundary]
  · have h7 : ("$gopwsh".data).length = 7 := rfl
    have h1 : ("$".data).length = 1 := rfl
    simp [createBoundary, List.length_append, h7, h1, hlen]
  · intro win s cmd e r hb hex2
    obtain ⟨b, hb2⟩ : ∃ b, s.backend = some b := by
      cases hbs : s.backend with
      | none => exact absurd hbs hb
      | some b => exact ⟨b, rfl⟩
    cases hwv : e.writeErr with
    | some w =>
      rw [execute_write_err s b hb2 cmd e win w hwv] at hex2
      injection hex2 with h2
      rw [← h2]
      rfl
    | none =>
      cases hfv : fastAllOrError (streamReader e.outChunks e.outEnd (createBoundary e.hexOut) win)
          (streamReader e.errChunks e.errEnd (createBoundary e.hexErr) win) with
      | ok a c =>
        rw [execute_streams_ok s b hb2 cmd e win hwv a c hfv] at hex2
        injection hex2 with h2
        rw [← h2]
        rfl
      | err m =>
        by_cases hf : parserErrorMark <:+: m
        · rw [execute_streams_err_fatal s b hb2 cmd e win hwv m hfv hf] at hex2
          injection hex2 with h2
          rw [← h2]
          rfl
        · rw [execute_streams_err_nonfatal s b hb2 cmd e win hwv m hfv hf] at hex2
          injection hex2 with h2
          rw [← h2]
          rfl
      | hang =>
        rw [execute_hang s b hb2 cmd e win hwv hfv] at hex2
        exact absurd hex2 (by simp)

/-- Concrete instantiation of `C6_sentinel_format`. -/
theorem C6_witness :
    hexA.length = 12 ∧
    createBoundary hexA = '$' :: ("gopwsh".data ++ hexA ++ ['$']) ∧
    (createBoundary hexA).length = 20 ∧
    (Shell.execute openShell "Get-Date".data envOk1 false).map (fun r => r.trace.head?) =
      some (some (.stdinWrite (framedCommand "Get-Date".data (createBoundary hexA)
        (createBoundary hexB) false))) := by
  have h := C6_sentinel_format hexA (by decide) (by decide)
  have hr : Shell.execute openShell "Get-Date".data envOk1 false =
      some ⟨openShell, "A".data, [], none,
        [.stdinWrite (framedCommand "Get-Date".data (createBoundary hexA)
          (createBoundary hexB) false),
         .stdoutRead, .stderrRead]⟩ := by decide
  have h3 := h.2.2 false openShell "Get-Date".data envOk1 _ (by decide) hr
  refine ⟨by decide, h.1, h.2.1, ?_⟩
  rw [hr]
  exact congrArg some h3

/-- Claim C1 (corrected: the per-stream output must also contain no
occurrence of the fatal marker "ParserError" — otherwise the source's
concurrently polling fatal watcher can win the race during any pause
before the sentinel arrives, rejecting the call and closing the session):
for a single command whose per-stream output contains neither sentinel nor
the fatal marker, `Execute` returns exactly that command's stdout and
stderr text, error-free (even with non-empty stderr), with no sentinel
residue and no truncation — whatever the chunking of either stream's bytes
across individual reads and however many watcher-poll pauses are
interleaved (the conclusion does not depend on the event lists, only on
the bytes they deliver). -/
theorem C1_framing_round_trip : ∀ (win : Bool) (s : Shell) (b : Backend) (cmd : Str)
    (tOut tErr : Str) (e : CmdEnv),
    s.backend = some b →
    e.writeErr = none →
    (∀ c ∈ e.hexOut, c ∈ hexAlphabet) →
    (∀ c ∈ e.hexErr, c ∈ hexAlphabet) →
    eventsBytes e.outChunks = tOut ++ createBoundary e.hexOut ++ newLine win →
    eventsBytes e.errChunks = tErr ++ createBoundary e.hexErr ++ newLine win →
    ¬ createBoundary e.hexOut <:+: tOut →
    ¬ createBoundary e.hexErr <:+: tOut →
    ¬ createBoundary e.hexOut <:+: tErr →
    ¬ createBoundary e.hexErr <:+: tErr →
    ¬ parserErrorMark <:+: tOut →
    ¬ parserErrorMark <:+: tErr →
    Shell.Execute s [(cmd, e)] win =
      some ⟨s, tOut, tErr, none,
        [.stdinWrite (framedCommand cmd (createBoundary e.hexOut) (createBoundary e.hexErr) win),
         .stdoutRead, .stderrRead]⟩ := by
  intro win s b cmd tOut tErr e hs hw hhexO hhexE hoj hej hno1 hno2 hne1 hne2 hpo hpe
  have hbO : ∃ bb : Str, createBoundary e.hexOut = '$' :: bb :=
    ⟨"gopwsh".data ++ e.hexOut ++ ['$'], by simp [createBoundary]⟩
  have hbE : ∃ bb : Str, createBoundary e.hexErr = '$' :: bb :=
    ⟨"gopwsh".data ++ e.hexErr ++ ['$'], by simp [createBoundary]⟩
  have hnfO : ¬ parserErrorMark <:+: (tOut ++ createBoundary e.hexOut ++ newLine win) := by
    rw [List.append_assoc]
    exact parser_not_in_stream tOut (createBoundary e.hexOut) (newLine win) hpo hbO
      (parser_not_in_tail e.hexOut (newLine win) hhexO (newLine_cases win))
  have hnfE : ¬ parserErrorMark <:+: (tErr ++ createBoundary e.hexErr ++ newLine win) := by
    rw [List.append_assoc]
    exact parser_not_in_stream tErr (createBoundary e.hexErr) (newLine win) hpe hbE
      (parser_not_in_tail e.hexErr (newLine win) hhexE (newLine_cases win))
  have hro : streamReader e.outChunks e.outEnd (createBoundary e.hexOut) win = .resolved tOut :=
    streamReader_resolved win tOut (createBoundary e.hexOut) e.outChunks e.outEnd hno1
      (boundary_no_newline _ hhexO) hnfO hoj
  have hre : streamReader e.errChunks e.errEnd (createBoundary e.hexErr) win = .resolved tErr :=
    streamReader_resolved win tErr (createBoundary e.hexErr) e.errChunks e.errEnd hne2
      (boundary_no_newline _ hhexE) hnfE hej
  have hfa : fastAllOrError (streamReader e.outChunks e.outEnd (createBoundary e.hexOut) win)
      (streamReader e.errChunks e.errEnd (createBoundary e.hexErr) win) = .ok tOut tErr := by
    rw [hro, hre]
    rfl
  have hex := execute_streams_ok s b hs cmd e win hw tOut tErr hfa
  have hEx := Execute_cons_ok s cmd e [] win _ hex rfl
  rw [hEx]
  simp
  exact ⟨⟨s, [], [], none, []⟩, rfl, rfl, rfl, rfl, rfl, rfl⟩

/-- Concrete instantiation of `C1_framing_round_trip`: stdout "hi" split
into odd chunks and stderr "eh" in one chunk both round-trip exactly. -/
theorem C1_witness :
    (eventsBytes envOkC1.outChunks = "hi".data ++ createBoundary envOkC1.hexOut ++ newLine false) ∧
    (¬ createBoundary envOkC1.hexOut <:+: "hi".data) ∧
    (¬ parserErrorMark <:+: "hi".data) ∧
    Shell.Execute openShell [("Get-ComputerInfo".data, envOkC1)] false =
      some ⟨openShell, "hi".data, "eh".data, none,
        [.stdinWrite (framedCommand "Get-ComputerInfo".data (createBoundary hexA)
          (createBoundary hexB) false),
         .stdoutRead, .stderrRead]⟩ := by
  refine ⟨by decide, by decide, by decide, ?_⟩
  exact C1_framing_round_trip false openShell ⟨true⟩ "Get-ComputerInfo".data
    "hi".data "eh".data envOkC1 rfl rfl (by decide) (by decide) (by decide) (by decide)
    (by decide) (by decide) (by decide) (by decide) (by decide) (by decide)

/-- Counterexample to claim C1 as stated: the stdout text
"oops ParserError" contains neither sentinel, yet when the stream stalls
for a poll interval between printing it and delivering the sentinel — the
schedule of a command that pauses before finishing — the fatal watcher
rejects the call: `Execute` returns an error with empty outputs and the
session is closed, not the nil-error round trip. -/
theorem C1_counterexample :
    (¬ createBoundary hexA <:+: "oops ParserError".data) ∧
    (¬ createBoundary hexB <:+: "oops ParserError".data) ∧
    (eventsBytes envPauseFatal.outChunks =
      "oops ParserError".data ++ createBoundary hexA ++ newLine false) ∧
    (eventsBytes envPauseFatal.errChunks = [] ++ createBoundary hexB ++ newLine false) ∧
    (Shell.Execute openShell [("cmdPause".data, envPauseFatal)] false).map
      (fun r => (r.stdout, r.stderr, r.err.isSome, r.shell.backend)) =
      some ([], [], true, none) := by
  exact ⟨by decide, by decide, by decide, by decide, by decide⟩

/-! ### Construction (`New`) lemmas -/

/-- With an explicit interpreter path, resolution performs no lookups. -/
theorem resolvePwsh_explicit (p : Str) (hp : p ≠ []) (lp : Str → Option Str) :
    resolvePwsh p lp = (some p, []) := by
  simp [resolvePwsh, hp]

/-- When `LookPath("pwsh")` succeeds, resolution stops there. -/
theorem resolvePwsh_pwsh (lp : Str → Option Str) (p : Str) (h : lp "pwsh".data = some p) :
    resolvePwsh [] lp = (some p, [.lookPathCall "pwsh".data]) := by
  simp [resolvePwsh, h]

/-- When `LookPath("pwsh")` fails, `LookPath("powershell")` is consulted. -/
theorem resolvePwsh_fallback (lp : Str → Option Str) (p : Str) (h1 : lp "pwsh".data = none)
    (h2 : lp "powershell".data = some p) :
    resolvePwsh [] lp =
      (some p, [.lookPathCall "pwsh".data, .lookPathCall "powershell".data]) := by
  simp [resolvePwsh, h1, h2]

/-- When both lookups fail, resolution fails. -/
theorem resolvePwsh_none (lp : Str → Option Str) (h1 : lp "pwsh".data = none)
    (h2 : lp "powershell".data = none) :
    resolvePwsh [] lp =
      (none, [.lookPathCall "pwsh".data, .lookPathCall "powershell".data]) := by
  simp [resolvePwsh, h1, h2]

/-- Sudo resolution only ever looks up the name "sudo". -/
theorem resolveSudo_mem (sl : Str) (lp : Str → Option Str) :
    ∀ x ∈ (resolveSudo sl lp).2, x = BackendCall.lookPathCall "sudo".data := by
  intro x hx
  unfold resolveSudo at hx
  by_cases h1 : sl = []
  · simp [h1] at hx
  · rw [if_neg h1] at hx
    by_cases h2 : sl = "sudo".data
    · rw [if_pos h2] at hx
      cases hlp : lp "sudo".data with
      | some p =>
        rw [hlp] at hx
        simp at hx
        exact hx
      | none =>
        rw [hlp] at hx
        simp at hx
        exact hx
    · rw [if_neg h2] at hx
      simp at hx

/-- When interpreter resolution fails, `New` fails with the binary-not-found
error and performs nothing beyond the env/wd pushes and the lookups. -/
theorem NewRun_resolve_fail (s0 : Shell) (o : BackendOracle) (tr1 : List BackendCall)
    (h : resolvePwsh s0.pwshLocation o.lookPath = (none, tr1)) :
    NewRun s0 o = (.error (.msg "Failed to locate a PowerShell binary".data),
      [BackendCall.setEnvCall, BackendCall.setWorkingDirCall] ++ tr1) := by
  simp only [NewRun, h]

/-- The `New` call trace always consists of the env/wd pushes, then the
interpreter-resolution lookups, then calls that are each either a
sudo lookup or a process start. -/
theorem NewRun_shape (s0 : Shell) (o : BackendOracle) :
    ∃ rest, (NewRun s0 o).2 =
      [BackendCall.setEnvCall, BackendCall.setWorkingDirCall] ++
        (resolvePwsh s0.pwshLocation o.lookPath).2 ++ rest ∧
      ∀ x ∈ rest, x = BackendCall.lookPathCall "sudo".data ∨
        ∃ c args, x = BackendCall.startProcessCall c args := by
  rcases hrp : resolvePwsh s0.pwshLocation o.lookPath with ⟨pres, tr1⟩
  cases pres with
  | none =>
    refine ⟨[], ?_, by simp⟩
    rw [NewRun_resolve_fail s0 o tr1 hrp]
    simp
  | some p =>
    rcases hrs : resolveSudo s0.sudoLocation o.lookPath with ⟨sres, tr2⟩
    have htr2 : ∀ x ∈ tr2, x = BackendCall.lookPathCall "sudo".data := by
      have h := resolveSudo_mem s0.sudoLocation o.lookPath
      rw [hrs] at h
      exact h
    cases sres with
    | none =>
      refine ⟨tr2, ?_, fun x hx => .inl (htr2 x hx)⟩
      simp [NewRun, hrp, hrs, List.append_assoc]
    | some so =>
      cases so with
      | none =>
        cases hse : o.startErr p ["-NoExit".data, "-Command".data, "-".data] with
        | some m =>
          refine ⟨tr2 ++ [.startProcessCall p ["-NoExit".data, "-Command".data, "-".data]],
            ?_, ?_⟩
          · simp [NewRun, hrp, hrs, hse, List.append_assoc]
          · intro x hx
            rcases List.mem_append.mp hx with hx2 | hx2
            · exact .inl (htr2 x hx2)
            · simp at hx2
              exact .inr ⟨_, _, hx2⟩
        | none =>
          refine ⟨tr2 ++ [.startProcessCall p ["-NoExit".data, "-Command".data, "-".data]],
            ?_, ?_⟩
          · simp [NewRun, hrp, hrs, hse, List.append_assoc]
          · intro x hx
            rcases List.mem_append.mp hx with hx2 | hx2
            · exact .inl (htr2 x hx2)
            · simp at hx2
              exact .inr ⟨_, _, hx2⟩
      | some sp =>
        cases hse : o.startErr sp [p, "-NoExit".data, "-Command".data, "-".data] with
        | some m =>
          refine ⟨tr2 ++ [.startProcessCall sp [p, "-NoExit".data, "-Command".data, "-".data]],
            ?_, ?_⟩
          · simp [NewRun, hrp, hrs, hse, List.append_assoc]
          · intro x hx
            rcases List.mem_append.mp hx with hx2 | hx2
            · exact .inl (htr2 x hx2)
            · simp at hx2
              exact .inr ⟨_, _, hx2⟩
        | none =>
          refine ⟨tr2 ++ [.startProcessCall sp [p, "-NoExit".data, "-Command".data, "-".data]],
            ?_, ?_⟩
          · simp [NewRun, hrp, hrs, hse, List.append_assoc]
          · intro x hx
            rcases List.mem_append.mp hx with hx2 | hx2
            · exact .inl (htr2 x hx2)
            · simp at hx2
              exact .inr ⟨_, _, hx2⟩

/-- An interpreter-binary lookup call never appears among the sudo/start
calls. -/
theorem interpLookup_not_in_rest (nm : Str) (hnm : nm ≠ "sudo".data)
    (rest : List BackendCall)
    (hrest : ∀ x ∈ rest, x = BackendCall.lookPathCall "sudo".data ∨
      ∃ c args, x = BackendCall.startProcessCall c args) :
    BackendCall.lookPathCall nm ∉ rest := by
  intro hmem
  rcases hrest _ hmem with h | ⟨c, args, h⟩
  · injection h with h2
    exact hnm h2
  · exact BackendCall.noConfusion h

/-- Claim C8 (confirmed): with no explicit interpreter path, `New` looks up
"pwsh" first; only if that fails does it look up "powershell"; if both
lookups fail it fails with the binary-not-found error and starts no
process; with an explicit path, no interpreter lookup is performed (the
sudo lookup triggered by elevation is a different name and is the only
other lookup `New` can make). -/
theorem C8_binary_resolution : ∀ (s0 : Shell) (o : BackendOracle),
    (s0.pwshLocation = [] → ∃ rest2, (NewRun s0 o).2 =
      [BackendCall.setEnvCall, BackendCall.setWorkingDirCall,
       BackendCall.lookPathCall "pwsh".data] ++ rest2) ∧
    (∀ p : Str, s0.pwshLocation = [] → o.lookPath "pwsh".data = some p →
      BackendCall.lookPathCall "powershell".data ∉ (NewRun s0 o).2 ∧
      (resolvePwsh s0.pwshLocation o.lookPath).1 = some p) ∧
    (∀ p : Str, s0.pwshLocation = [] → o.lookPath "pwsh".data = none →
      o.lookPath "powershell".data = some p →
      BackendCall.lookPathCall "powershell".data ∈ (NewRun s0 o).2 ∧
      (resolvePwsh s0.pwshLocation o.lookPath).1 = some p) ∧
    (s0.pwshLocation = [] → o.lookPath "pwsh".data = none →
      o.lookPath "powershell".data = none →
      (NewRun s0 o).1 = .error (.msg "Failed to locate a PowerShell binary".data) ∧
      ∀ (c : Str) (args : List Str), BackendCall.startProcessCall c args ∉ (NewRun s0 o).2) ∧
    (s0.pwshLocation ≠ [] →
      BackendCall.lookPathCall "pwsh".data ∉ (NewRun s0 o).2 ∧
      BackendCall.lookPathCall "powershell".data ∉ (NewRun s0 o).2) := by
  intro s0 o
  refine ⟨?_, ?_, ?_, ?_, ?_⟩
  · -- "pwsh" is looked up first
    intro hp
    obtain ⟨rest, hsh, _⟩ := NewRun_shape s0 o
    rw [hp] at hsh
    cases hlp : o.lookPath "pwsh".data with
    | some p =>
      rw [resolvePwsh_pwsh o.lookPath p hlp] at hsh
      exact ⟨rest, by rw [hsh]; simp⟩
    | none =>
      cases hlp2 : o.lookPath "powershell".data with
      | some p =>
        rw [resolvePwsh_fallback o.lookPath p hlp hlp2] at hsh
        exact ⟨BackendCall.lookPathCall "powershell".data :: rest, by rw [hsh]; simp⟩
      | none =>
        rw [resolvePwsh_none o.lookPath hlp hlp2] at hsh
        exact ⟨BackendCall.lookPathCall "powershell".data :: rest, by rw [hsh]; simp⟩
  · -- "powershell" is not looked up when "pwsh" is found
    intro p hp hlp
    obtain ⟨rest, hsh, hrest⟩ := NewRun_shape s0 o
    rw [hp, resolvePwsh_pwsh o.lookPath p hlp] at hsh
    constructor
    · intro hmem
      rw [hsh] at hmem
      rcases List.mem_append.mp hmem with h1 | h1
      · rcases List.mem_append.mp h1 with h2 | h2
        · simp at h2
        · simp at h2
      · exact interpLookup_not_in_rest "powershell".data (by decide) rest hrest h1
    · rw [hp, resolvePwsh_pwsh o.lookPath p hlp]
  · -- fallback to "powershell" on "pwsh" failure
    intro p hp hlp hlp2
    obtain ⟨rest, hsh, _⟩ := NewRun_shape s0 o
    rw [hp, resolvePwsh_fallback o.lookPath p hlp hlp2] at hsh
    constructor
    · rw [hsh]
      simp
    · rw [hp, resolvePwsh_fallback o.lookPath p hlp hlp2]
  · -- both lookups fail: error, no process started
    intro hp hlp hlp2
    have hrp : resolvePwsh s0.pwshLocation o.lookPath =
        (none, [.lookPathCall "pwsh".data, .lookPathCall "powershell".data]) := by
      rw [hp]
      exact resolvePwsh_none o.lookPath hlp hlp2
    have hN := NewRun_resolve_fail s0 o _ hrp
    constructor
    · rw [hN]
    · intro c args hmem
      rw [hN] at hmem
      simp at hmem
  · -- explicit path: no interpreter lookup at all
    intro hp
    obtain ⟨rest, hsh, hrest⟩ := NewRun_shape s0 o
    rw [resolvePwsh_explicit s0.pwshLocation hp o.lookPath] at hsh
    constructor
    · intro hmem
      rw [hsh] at hmem
      rcases List.mem_append.mp hmem with h1 | h1
      · rcases List.mem_append.mp h1 with h2 | h2
        · simp at h2
        · simp at h2
      · exact interpLookup_not_in_rest "pwsh".data (by decide) rest hrest h1
    · intro hmem
      rw [hsh] at hmem
      rcases List.mem_append.mp hmem with h1 | h1
      · rcases List.mem_append.mp h1 with h2 | h2
        · simp at h2
        · simp at h2
      · exact interpLookup_not_in_rest "powershell".data (by decide) rest hrest h1

/-- Concrete instantiation of `C8_binary_resolution`: a backend finding
nothing yields the binary-not-found error with no process start; a backend
finding only "pwsh" never has "powershell" looked up. -/
theorem C8_witness :
    (NewRun closedShell oracleNone).1 =
      .error (.msg "Failed to locate a PowerShell binary".data) ∧
    BackendCall.startProcessCall "/usr/bin/pwsh".data [] ∉ (NewRun closedShell oracleNone).2 ∧
    BackendCall.lookPathCall "powershell".data ∉ (NewRun closedShell oraclePwshOnly).2 ∧
    (resolvePwsh closedShell.pwshLocation oraclePwshOnly.lookPath).1 =
      some "/usr/bin/pwsh".data := by
  have h1 := (C8_binary_resolution closedShell oracleNone).2.2.2.1 rfl rfl rfl
  have h2 := (C8_binary_resolution closedShell oraclePwshOnly).2.1 "/usr/bin/pwsh".data rfl
    (by decide)
  exact ⟨h1.1, h1.2 "/usr/bin/pwsh".data [], h2.1, h2.2⟩

end Gopwsh
